import Mathlib

/-!
Verification of the FreeQDSK specification against the source of
`freeqdsk` (files `src/freeqdsk/_fileutils.py`, `src/freeqdsk/aeqdsk.py`,
`src/freeqdsk/geqdsk.py`).

The development is a shallow embedding: Python functions become Lean
functions, the sequential consumption of a text file handle becomes
explicit threading of a `List String` of remaining lines (Python's
`fh.readline()` returns the empty string exactly at end of file, which
corresponds to the empty list here), exceptions become `Except`, and
`warnings.warn` diagnostics become explicit booleans in the results.
Numeric values are exact (`ℚ` for the A-EQDSK layer, `ℝ` for the G-EQDSK
convention handling); the decoding of a text line into numeric cells is
performed in the source by the external `fortranformat` package, so the
line decoders appear here as function parameters `decode : String → List α`,
with a concrete fixed-width integer decoder modelled from the spec for
use on concrete inputs.
-/

namespace FreeQDSK

/-- Python exception kinds raised by the embedded code
(`EOFError`, `ValueError`, `TypeError`, `KeyError`, `IndexError`). -/
inductive PyErr where
  | eof
  | valueError
  | typeError
  | keyError
  | indexError
deriving DecidableEq, Repr

/-- Python list slicing `xs[:k]` (negative `k` counts from the end);
used for `result = result[:shape]` in `read_array` and the
`joined[:n]` split in `aeqdsk.read`. -/
def pyTake {α : Type} (k : ℤ) (xs : List α) : List α :=
  if 0 ≤ k then xs.take k.toNat else xs.take (xs.length - (-k).toNat)

/-- Python list slicing `xs[k:]` (negative `k` counts from the end). -/
def pyDrop {α : Type} (k : ℤ) (xs : List α) : List α :=
  if 0 ≤ k then xs.drop k.toNat else xs.drop (xs.length - (-k).toNat)

/-- Python extended slicing `xs[0::2]` (every second element);
`xs[1::2]` is `everyOther (xs.drop 1)`. Used for the interleaved
boundary/limiter coordinate arrays in `geqdsk.read`. -/
def everyOther {α : Type} : List α → List α
  | [] => []
  | [a] => [a]
  | a :: _ :: rest => a :: everyOther rest

/-- The sentinel integer `shape_all = -44379512921` of
`_fileutils.read_array`: a scalar shape equal to it selects the
read-until-end-of-file mode. -/
def shape_all : ℤ := -44379512921

/-- The `shape` argument of `_fileutils.read_array`: the string `"all"`,
a scalar (0-dimensional) integer, or a 1-dimensional list of sizes.
(`read_array` rejects every shape of 2 or more dimensions with a
`ValueError`; such shapes are not representable here.) -/
inductive ArrayShape where
  | all
  | scalar (s : ℤ)
  | dims (ds : List ℤ)
deriving DecidableEq, Repr

/-- Result of `_fileutils.read_array`: the flat cell buffer of the
returned `numpy` array in Fortran (column-major) order, the shape of the
returned array, the lines of the file not yet consumed, and whether the
"additional elements ... have been discarded" `UserWarning` was issued. -/
structure ReadOut (α : Type) where
  values : List α
  dims : List ℤ
  rest : List String
  warned : Bool
deriving DecidableEq, Repr

/-- The accumulation loop of `_fileutils.read_array` (lines 306-310 of
`_fileutils.py`): while fewer than `n` cells have been collected, read
one more line (raising `EOFError` at end of file) and append its decoded
cells. -/
def collect {α : Type} (decode : String → List α) (n : ℤ) :
    List String → List α → Except PyErr (List α × List String)
  | lines, acc =>
    if (acc.length : ℤ) < n then
      match lines with
      | [] => .error .eof
      | l :: ls => collect decode n ls (acc ++ decode l)
    else .ok (acc, lines)

/-- The scalar-shape body of `_fileutils.read_array` (lines 298-317):
the sentinel shape reads and decodes every remaining line; any other
scalar shape runs the accumulation loop, then warns and discards
(`result[:shape]`) if the last line supplied extra cells. -/
def read_array_flat {α : Type} (decode : String → List α) (s : ℤ)
    (lines : List String) : Except PyErr (List α × List String × Bool) :=
  if s = shape_all then
    .ok ((lines.map decode).flatten, [], false)
  else
    match collect decode s lines [] with
    | .error e => .error e
    | .ok (res, rest) =>
      if (res.length : ℤ) = s then .ok (res, rest, false)
      else .ok (pyTake s res, rest, true)

/-- `numpy.prod` of a shape list, as used in line 295 of
`_fileutils.py`. -/
def listProd (ds : List ℤ) : ℤ := ds.foldl (fun a b => a * b) 1

/-- `_fileutils.read_array`. The string shape `"all"` re-dispatches with
the sentinel scalar shape (lines 283-285); a 1-dimensional shape reads
the product of its entries flat and reshapes in Fortran order
(line 295) — the reshaped array is represented by its column-major
buffer together with its shape. -/
def read_array {α : Type} (decode : String → List α) (shape : ArrayShape)
    (lines : List String) : Except PyErr (ReadOut α) :=
  match shape with
  | .all =>
    (read_array_flat decode shape_all lines).map
      (fun o => ⟨o.1, [(o.1.length : ℤ)], o.2.1, o.2.2⟩)
  | .scalar s =>
    (read_array_flat decode s lines).map
      (fun o => ⟨o.1, [(o.1.length : ℤ)], o.2.1, o.2.2⟩)
  | .dims ds =>
    (read_array_flat decode (listProd ds) lines).map
      (fun o => ⟨o.1, ds, o.2.1, o.2.2⟩)

/-- Modelled from the spec: element `(i, j)` of a 2-dimensional array
stored column-major ("the first dimension is the fastest-varying
index") sits at flat offset `i + j * m` where `m` is the first
dimension. -/
def fortranEntry {α : Type} (o : ReadOut α) (i j : ℕ) : Option α :=
  o.values.get? (i + j * (o.dims.headD 0).toNat)

instance {ε α : Type} [DecidableEq ε] [DecidableEq α] :
    DecidableEq (Except ε α)
  | .ok a, .ok b =>
    if h : a = b then .isTrue (by rw [h]) else .isFalse (by simp [h])
  | .ok _, .error _ => .isFalse (by simp)
  | .error _, .ok _ => .isFalse (by simp)
  | .error e, .error f =>
    if h : e = f then .isTrue (by rw [h]) else .isFalse (by simp [h])

/-- Decimal digits of a cell, most significant first. -/
def parseNatDigits : List Char → Option ℕ
  | [] => none
  | cs =>
    cs.foldl
      (fun acc c =>
        acc.bind (fun a => if c.isDigit then some (a * 10 + (c.toNat - 48)) else none))
      (some 0)

/-- Modelled from the spec: the record codec of the external
`fortranformat` package for an integer edit descriptor `(NiW)` (it is a
dependency, not part of `src/`).  Decoding slices the line into `count`
cells of `width` characters each and parses every cell as an optionally
signed, blank-padded decimal integer; with the `RET_WRITTEN_VARS_ONLY`
configuration used throughout `_fileutils.py`, cells lying wholly beyond
the end of the line yield no value. -/
def parseIntCell (cs : List Char) : Option ℤ :=
  let t := (cs.dropWhile (fun c => c.isWhitespace)).reverse.dropWhile
    (fun c => c.isWhitespace) |>.reverse
  match t with
  | '-' :: rest => (parseNatDigits rest).map (fun n => -(n : ℤ))
  | _ => (parseNatDigits t).map (fun n => (n : ℤ))

/-- Modelled from the spec: see `parseIntCell`. -/
def decodeIntCells (count width : ℕ) (line : String) : List ℤ :=
  (List.range count).filterMap
    (fun k => parseIntCell ((line.toList.drop (k * width)).take width))

/-! ## The A-EQDSK schema layer (`src/freeqdsk/aeqdsk.py`) -/

/-- A value stored in the `dict` consumed by `aeqdsk.write` and produced
by `aeqdsk.read`: a string, a Python/`numpy` integer, a float, or a
1-dimensional float array.  Float values are embedded as exact
rationals. -/
inductive DocValue where
  | str (s : String)
  | int (n : ℤ)
  | num (q : ℚ)
  | arr (xs : List ℚ)
deriving DecidableEq, Repr

/-- The A-EQDSK document: a Python `dict` keyed by field name, embedded
as an insertion-ordered association list. -/
def Doc : Type := List (String × DocValue)

instance : DecidableEq Doc := inferInstanceAs (DecidableEq (List (String × DocValue)))

instance : Repr Doc := inferInstanceAs (Repr (List (String × DocValue)))

/-- `data[k] = v` on a Python dict: replace the value of an existing key
in place, otherwise append the binding. -/
def docSet (d : Doc) (k : String) (v : DocValue) : Doc :=
  match d with
  | [] => [(k, v)]
  | (k', v') :: rest =>
    if k' = k then (k, v) :: rest else (k', v') :: docSet rest k v

/-- Sequence of dict assignments, used for the `for field, value in
zip(...)` assignment loops of `aeqdsk.read`. -/
def docSetAll (data : Doc) (kvs : List (String × DocValue)) : Doc :=
  kvs.foldl (fun d p => docSet d p.1 p.2) data

/-- Python `len(...)` on a document value: defined for arrays and
strings, a `TypeError` on scalars. -/
def pyLen : DocValue → Except PyErr ℕ
  | .arr xs => .ok xs.length
  | .str s => .ok s.length
  | _ => .error .typeError

/-- Python/`numpy` float-to-int conversion: truncation toward zero. -/
def pyTrunc (q : ℚ) : ℤ := if 0 ≤ q then ⌊q⌋ else ⌈q⌉

/-- Python `int(...)` of a document value.  (`int` applied to a numeric
string or to a 1-element array also succeeds in Python; neither occurs
in the embedded call sites, and both are modelled as errors.) -/
def pyInt : DocValue → Except PyErr ℤ
  | .int n => .ok n
  | .num q => .ok (pyTrunc q)
  | _ => .error .valueError

/-- Python `float(...)` of a document value.  (`float` of a numeric
string also succeeds in Python; string values are modelled as the
`ValueError` that every non-numeric string raises.) -/
def pyFloat : DocValue → Except PyErr ℚ
  | .int n => .ok (n : ℚ)
  | .num q => .ok q
  | _ => .error .valueError

/-- Python `==` between a stored document value and an integer length:
numeric values compare numerically, strings and arrays compare
unequal. -/
def numEq (v : DocValue) (q : ℚ) : Bool :=
  match v with
  | .num x => x = q
  | .int n => (n : ℚ) = q
  | _ => false

/-- `numpy.zeros(size)` where `size` came out of the document:
integer sizes must be non-negative, non-integer sizes are a
`TypeError`. -/
def np_zeros (v : DocValue) : Except PyErr (List ℚ) :=
  match v with
  | .int n => if 0 ≤ n then .ok (List.replicate n.toNat 0) else .error .valueError
  | _ => .error .typeError

/-- `np.asarray(...)` followed by the 0-dimensional wrap of
`aeqdsk._array_field`: arrays pass through, scalars become 1-element
arrays.  (A string becomes a 0-d string array in `numpy`; no numeric
array of it exists, and it is modelled as an error.) -/
def pyAsArray : DocValue → Except PyErr (List ℚ)
  | .arr xs => .ok xs
  | .num q => .ok [q]
  | .int n => .ok [(n : ℚ)]
  | .str _ => .error .typeError

/-- `aeqdsk.Field`: name plus default policy.  The `description`
attribute of the source dataclass is documentation only and is
omitted. -/
structure Field where
  name : String
  default : Option ℚ
  has_length : Option String
  length_of : Option String
deriving DecidableEq, Repr

/-- A field with a constant float default. -/
def mkF (n : String) (d : ℚ) : Field := ⟨n, some d, none, none⟩

/-- An array field defaulting to zeros of the length named by another
field (`has_length`). -/
def mkArr (n hl : String) : Field := ⟨n, none, some hl, none⟩

/-- An integer field defaulting to the length of another field
(`length_of`). -/
def mkLen (n lo : String) : Field := ⟨n, none, none, some lo⟩

/-- `aeqdsk._float_field`: `float(data.get(field.name, field.default))`.
(`float(None)` raises a `TypeError`.) -/
def _float_field (f : Field) (data : Doc) : Except PyErr ℚ :=
  match List.lookup f.name data with
  | some v => pyFloat v
  | none =>
    match f.default with
    | some d => .ok d
    | none => .error .typeError

/-- `aeqdsk._len_field` (lines 500-513 of `aeqdsk.py`): a length field
is taken from the document if present — after checking it against the
actual length of the referenced array when that array is also present —
and otherwise defaults to `len(data.get(field.length_of, []))`. -/
def _len_field (f : Field) (data : Doc) : Except PyErr ℤ :=
  match List.lookup f.name data with
  | none =>
    match f.length_of with
    | none => .ok 0
    | some lo =>
      match List.lookup lo data with
      | none => .ok 0
      | some w => (pyLen w).map (fun k => (k : ℤ))
  | some v =>
    match f.length_of with
    | none => pyInt v
    | some lo =>
      match List.lookup lo data with
      | none => pyInt v
      | some w => do
        let lw ← pyLen w
        if numEq v (lw : ℚ) then pyInt v else .error .valueError

/-- `aeqdsk._array_field` (lines 516-533 of `aeqdsk.py`): an array
field is taken from the document if present (scalars wrapped into
1-element arrays, and the declared length checked when the `has_length`
counterpart is also present), and otherwise defaults to
`np.zeros(data.get(field.has_length, 0))`. -/
def _array_field (f : Field) (data : Doc) : Except PyErr (List ℚ) :=
  match List.lookup f.name data with
  | none =>
    np_zeros
      (match f.has_length with
       | none => DocValue.int 0
       | some hl => (List.lookup hl data).getD (DocValue.int 0))
  | some v => do
    let result ← pyAsArray v
    match f.has_length with
    | none => .ok result
    | some hl =>
      match List.lookup hl data with
      | none => .ok result
      | some w => do
        let lv ← pyLen v
        if numEq w (lv : ℚ) then .ok result else .error .valueError

/-- `aeqdsk._general_block_1`: the 24 scalar fields before the CO2
laser arrays, with their defaults. -/
def _general_block_1 : List Field :=
  [mkF ("tsaisq") 0, mkF ("rcencm") 100, mkF ("bcentr") 1,
   mkF ("pasmat") 1000000, mkF ("cpasma") 1000000, mkF ("rout") 100,
   mkF ("zout") 0, mkF ("aout") 50, mkF ("eout") 1, mkF ("doutu") 1,
   mkF ("doutl") 1, mkF ("vout") 1000, mkF ("rcurrt") 100,
   mkF ("zcurrt") 0, mkF ("qsta") 5, mkF ("betat") 1, mkF ("betap") 1,
   mkF ("ali") 0, mkF ("oleft") 10, mkF ("oright") 10, mkF ("otop") 10,
   mkF ("obott") 10, mkF ("qpsib") 5, mkF ("vertn") 1]

/-- `aeqdsk._laser_block`: the four CO2 laser chord arrays, sized by
`mco2v`/`mco2r`. -/
def _laser_block : List Field :=
  [mkArr ("rco2v") ("mco2v"), mkArr ("dco2v") ("mco2v"),
   mkArr ("rco2r") ("mco2r"), mkArr ("dco2r") ("mco2r")]

/-- `aeqdsk._general_block_2`: the 44 scalar fields between the laser
arrays and the extended section, with their defaults. -/
def _general_block_2 : List Field :=
  [mkF ("shearb") 0, mkF ("bpolav") 1, mkF ("s1") 0, mkF ("s2") 0,
   mkF ("s3") 0, mkF ("qout") 0, mkF ("olefs") 0, mkF ("orighs") 0,
   mkF ("otops") 0, mkF ("sibdry") 1, mkF ("areao") 100,
   mkF ("wplasm") 0, mkF ("terror") 0, mkF ("elongm") 0,
   mkF ("qqmagx") 0, mkF ("cdflux") 0, mkF ("alpha") 0, mkF ("rttt") 0,
   mkF ("psiref") 1, mkF ("xndnt") 0, mkF ("rseps1") 1,
   mkF ("zseps1") (-1), mkF ("rseps2") 1, mkF ("zseps2") 1,
   mkF ("sepexp") 0, mkF ("obots") 0, mkF ("btaxp") 1, mkF ("btaxv") 1,
   mkF ("aaq1") 100, mkF ("aaq2") 100, mkF ("aaq3") 100,
   mkF ("seplim") 0, mkF ("rmagx") 100, mkF ("zmagx") 0,
   mkF ("simagx") 0, mkF ("taumhd") 0, mkF ("betapd") 0,
   mkF ("betatd") 0, mkF ("wplasmd") 0, mkF ("diamag") 0,
   mkF ("vloopt") 0, mkF ("taudia") 0, mkF ("qmerci") 0,
   mkF ("tavem") 10]

/-- `aeqdsk._extended_sizes`: the four array-length fields opening the
extended section. -/
def _extended_sizes : List Field :=
  [mkLen ("nsilop") ("csilop"), mkLen ("magpri") ("cmpr2"),
   mkLen ("nfcoil") ("ccbrsp"), mkLen ("nesum") ("eccurt")]

/-- First entry of `aeqdsk._extended_arrays_1`. -/
def csilopField : Field := mkArr ("csilop") ("nsilop")

/-- Second entry of `aeqdsk._extended_arrays_1`. -/
def cmpr2Field : Field := mkArr ("cmpr2") ("magpri")

/-- `aeqdsk._extended_arrays_1`: the two arrays stored back-to-back. -/
def _extended_arrays_1 : List Field := [csilopField, cmpr2Field]

/-- `aeqdsk._extended_arrays_2`: the two arrays stored normally. -/
def _extended_arrays_2 : List Field :=
  [mkArr ("ccbrsp") ("nfcoil"), mkArr ("eccurt") ("nesum")]

/-- `aeqdsk._extended_general`: the 56 trailing scalar fields, all with
default `0.0`. -/
def _extended_general : List Field :=
  ([("pbinj"), ("rvsin"), ("zvsin"), ("rvsout"), ("zvsout"), ("vsurfa"),
    ("wpdot"), ("wbdot"), ("slantu"), ("slantl"), ("zuperts"),
    ("chipre"), ("cjor95"), ("pp95"), ("ssep"), ("yyy2"), ("xnnc"),
    ("cprof"), ("oring"), ("cjor0"), ("fexpan"), ("qqmin"), ("chigamt"),
    ("ssi01"), ("fexpvs"), ("sepnose"), ("ssi95"), ("rqqmin"),
    ("cjor99"), ("cj1ave"), ("rmidin"), ("rmidout"), ("psurfa"),
    ("peak"), ("dminux"), ("dminlx"), ("dolubaf"), ("dolubafm"),
    ("diludom"), ("diludomm"), ("ratsol"), ("rvsiu"), ("zvsiu"),
    ("rvsid"), ("zvsid"), ("rvsou"), ("zvsou"), ("rvsod"), ("zvsod"),
    ("condno"), ("dollbaf"), ("dollbafm"), ("dilldom"), ("dilldomm"),
    ("dummy_1"), ("dummy_2")]).map (fun n => mkF n 0)

/-- The fields of the four extended blocks, in file order; `write`
emits the extended section iff at least one of them is present in the
document (the `for ... else` test on lines 624-629 of `aeqdsk.py`). -/
def _extended_blocks : List Field :=
  _extended_sizes ++ _extended_arrays_1 ++ _extended_arrays_2 ++ _extended_general

/-- Index of the last `_extended_general` field present in the
document, and `0` when none is (lines 651-654 of `aeqdsk.py`). -/
def last_field (data : Doc) : ℤ :=
  _extended_general.enum.foldl
    (fun acc p => if (List.lookup p.2.name data).isSome then (p.1 : ℤ) else acc) 0

/-- `last_field += -last_field % 4` (line 655 of `aeqdsk.py`); Python's
`%` on a positive modulus is `Int.emod`. -/
def last_field_count (data : Doc) : ℤ :=
  last_field data + (-last_field data) % 4

/-- The extended section of an A-EQDSK file as emitted by
`aeqdsk.write`: the four sizes, the concatenated pair of arrays, the
two normal arrays, and the trailing general block (each trailing value
tagged with its field name). -/
structure ExtendedSection where
  sizes : List ℤ
  joined : List ℚ
  arrays2 : List (List ℚ)
  trailing : List (String × ℚ)
deriving DecidableEq, Repr

/-- Lines 617-656 of `aeqdsk.write`: emit no extended section when no
extended field is present; otherwise resolve the sizes via
`_len_field`, the arrays via `_array_field` (the first two
concatenated), and the trailing general block only up to
`last_field_count` fields, resolving each via `_float_field`. -/
def aeqdsk_write_extended (data : Doc) : Except PyErr (Option ExtendedSection) :=
  if _extended_blocks.any (fun f => (List.lookup f.name data).isSome) then do
    let sizes ← _extended_sizes.mapM (fun f => _len_field f data)
    let a1 ← _extended_arrays_1.mapM (fun f => _array_field f data)
    let a2 ← _extended_arrays_2.mapM (fun f => _array_field f data)
    let tr ← (_extended_general.take (last_field_count data).toNat).mapM
      (fun f => do
        let v ← _float_field f data
        pure (f.name, v))
    .ok (some ⟨sizes, a1.flatten, a2, tr⟩)
  else .ok none

/-- Worker for `pySplit`: the second argument accumulates the current
word in reverse. -/
def pySplitChars : List Char → List Char → List String
  | [], acc => if acc.isEmpty then [] else [String.mk acc.reverse]
  | c :: cs, acc =>
    if c.isWhitespace then
      if acc.isEmpty then pySplitChars cs []
      else String.mk acc.reverse :: pySplitChars cs []
    else pySplitChars cs (c :: acc)

/-- Python `str.split()` with no argument: split on runs of whitespace,
dropping empty pieces. -/
def pySplit (s : String) : List String := pySplitChars s.toList []

/-- Python `line.replace("*", "")`: removing every star character. -/
def removeStars (s : String) : String :=
  String.mk (s.toList.filter (fun c => !(c = '*')))

/-- Python `str.rstrip()`. -/
def pyRstrip (s : String) : String :=
  String.mk (s.toList.reverse.dropWhile (fun c => c.isWhitespace)).reverse

/-- `fh.readline()`: the next line, or the empty string at end of
file. -/
def readline (lines : List String) : String × List String :=
  match lines with
  | [] => (("") , [])
  | l :: ls => (l, ls)

/-- Lift the result of a Python conversion (`int(...)`, `float(...)` on
a string) into the error monad. -/
def orElseErr {β : Type} (o : Option β) (e : PyErr) : Except PyErr β :=
  match o with
  | some b => .ok b
  | none => .error e

/-- `data[key]` used as an array length or element count
(`numpy` truncates floats when converting with `dtype=int`);
`data[None]` or a missing key raises `KeyError`. -/
def getIndexInt (data : Doc) (key : Option String) : Except PyErr ℤ :=
  match key with
  | none => .error .keyError
  | some k =>
    match List.lookup k data with
    | none => .error .keyError
    | some (.int n) => .ok n
    | some (.num q) => .ok (pyTrunc q)
    | some _ => .error .typeError

/-- The array-reading loops of `aeqdsk.read` (`for field in ...:`
`read_array(data[field.has_length], fh, data_fmt)`), threading the
remaining lines. -/
def read_field_arrays (decF : String → List ℚ) :
    List Field → Doc → List String → Except PyErr (Doc × List String)
  | [], data, rest => .ok (data, rest)
  | f :: fs, data, rest => do
    let cnt ← getIndexInt data f.has_length
    let o ← read_array decF (.scalar cnt) rest
    read_field_arrays decF fs (docSet data f.name (.arr o.values)) o.rest

/-- Lines 683-723 of `aeqdsk.read`: the four header lines, the first
general block, the laser arrays and the second general block — the
document accumulated before the extended section is attempted.  The
token conversions `int(...)`/`float(...)` and the `fortranformat` line
decoder are parameters (`pint`, `pfloat`, `decF`). -/
def aeqdsk_read_preamble (pint : String → Option ℤ) (pfloat : String → Option ℚ)
    (decF : String → List ℚ) (lines : List String) :
    Except PyErr (Doc × List String) := do
  let (l1, r1) := readline lines
  let header := pyRstrip l1
  let (l2, r2) := readline r1
  let shot ←
    match pySplit l2 with
    | [] => .error PyErr.indexError
    | w :: _ => orElseErr (pint w) .valueError
  let (l3, r3) := readline r2
  let time ← orElseErr (pfloat l3) .valueError
  let (l4, r4) := readline r3
  match pySplit (removeStars l4) with
  | _w0 :: w1 :: w2 :: w3 :: w4 :: w5 :: w6 :: _ => do
    let jflag ← orElseErr (pint w1) .valueError
    let lflag ← orElseErr (pint w2) .valueError
    let mco2v ← orElseErr (pint w4) .valueError
    let mco2r ← orElseErr (pint w5) .valueError
    let data : Doc :=
      [(("header"), .str header), (("shot"), .int shot),
       (("time"), .num time), (("jflag"), .int jflag),
       (("lflag"), .int lflag), (("limloc"), .str w3),
       (("mco2v"), .int mco2v), (("mco2r"), .int mco2r),
       (("qmflag"), .str w6)]
    let o1 ← read_array decF (.scalar (_general_block_1.length : ℤ)) r4
    let data := docSetAll data
      ((_general_block_1.map Field.name).zip (o1.values.map DocValue.num))
    let (data, r5) ← read_field_arrays decF _laser_block data o1.rest
    let o2 ← read_array decF (.scalar (_general_block_2.length : ℤ)) r5
    let data := docSetAll data
      ((_general_block_2.map Field.name).zip (o2.values.map DocValue.num))
    .ok (data, o2.rest)
  | _ => .error PyErr.indexError

/-- Result of `aeqdsk.read`: the document, whether the
"assuming old file type" legacy warning fired, and whether the
"variables ... not recognised" warning fired. -/
structure AeqdskResult where
  data : Doc
  legacy : Bool
  extraWarn : Bool
deriving DecidableEq, Repr

/-- Lines 733-762 of `aeqdsk.read`: assign the four sizes, read the
back-to-back pair as one array of the summed length and split it at the
first size, read the two normal arrays, then read the trailing general
block to end of file (warning when it holds more values than the
catalog knows). -/
def aeqdsk_read_extended (decF : String → List ℚ) (data : Doc) (o : ReadOut ℤ) :
    Except PyErr AeqdskResult := do
  let data := docSetAll data
    ((_extended_sizes.map Field.name).zip (o.values.map DocValue.int))
  let ls ← _extended_arrays_1.mapM (fun f => getIndexInt data f.has_length)
  let joined_len := ls.foldl (fun a b => a + b) 0
  let oj ← read_array decF (.scalar joined_len) o.rest
  let n0 ← getIndexInt data csilopField.has_length
  let data := docSet data csilopField.name (.arr (pyTake n0 oj.values))
  let data := docSet data cmpr2Field.name (.arr (pyDrop n0 oj.values))
  let (data, r2) ← read_field_arrays decF _extended_arrays_2 data oj.rest
  let oall ← read_array decF .all r2
  let extraWarn := decide (_extended_general.length < oall.values.length)
  let data := docSetAll data
    ((_extended_general.map Field.name).zip (oall.values.map DocValue.num))
  .ok ⟨data, false, extraWarn⟩

/-- `aeqdsk.read` (lines 659-762): the preamble, then the opportunistic
read of the extended-sizes line — any failure there is caught, the
legacy-file warning is issued, and the document accumulated so far is
returned (lines 725-731); on success the extended section is read. -/
def aeqdsk_read (pint : String → Option ℤ) (pfloat : String → Option ℚ)
    (decF : String → List ℚ) (decI : String → List ℤ) (lines : List String) :
    Except PyErr AeqdskResult :=
  match aeqdsk_read_preamble pint pfloat decF lines with
  | .error e => .error e
  | .ok (data, rest) =>
    match read_array decI (.scalar (_extended_sizes.length : ℤ)) rest with
    | .error _ => .ok ⟨data, true, false⟩
    | .ok o => aeqdsk_read_extended decF data o

/-! ## The G-EQDSK schema layer (`src/freeqdsk/geqdsk.py`)

Values are embedded as real numbers so that the division by `2 * π` of
the COCOS convention handling is exact.  The document structure holds
the fields that `geqdsk.read` assembles after its header line; the
header `comment`/`shot`/`nx`/`ny` entries and the derived
`r_grid`/`z_grid` of `GEQDSKFile.__post_init__` play no part in the
convention handling and are not modelled.  2-dimensional grids are
represented by their column-major (Fortran order) flat buffer, exactly
as they appear in the file. -/

/-- The float and array fields of a G-EQDSK document. -/
structure GeqdskDoc where
  rdim : ℝ := 0
  zdim : ℝ := 0
  rcentr : ℝ := 0
  rleft : ℝ := 0
  zmid : ℝ := 0
  rmagx : ℝ := 0
  zmagx : ℝ := 0
  simagx : ℝ := 0
  sibdry : ℝ := 0
  bcentr : ℝ := 0
  cpasma : ℝ := 0
  fpol : List ℝ := []
  pres : List ℝ := []
  ffprime : List ℝ := []
  pprime : List ℝ := []
  psi : List ℝ := []
  qpsi : List ℝ := []
  nbdry : ℤ := 0
  nlim : ℤ := 0
  rbdry : Option (List ℝ) := none
  zbdry : Option (List ℝ) := none
  rlim : Option (List ℝ) := none
  zlim : Option (List ℝ) := none

/-- `geqdsk._float_keys`: the 20 float slots of lines 2-5 of a G-EQDSK
file; `none` marks a dummy slot. -/
def _float_keys : List (Option String) :=
  [some ("rdim"), some ("zdim"), some ("rcentr"), some ("rleft"),
   some ("zmid"), some ("rmagx"), some ("zmagx"), some ("simagx"),
   some ("sibdry"), some ("bcentr"), some ("cpasma"), some ("simagx"),
   none, some ("rmagx"), none, some ("zmagx"), none, some ("sibdry"),
   none, none]

/-- `data[key] = value` for a named float slot (the assignment loop of
`geqdsk.read`, lines 585-596; a `none` key is skipped, a repeated key
keeps the last value — the duplicate-mismatch `UserWarning` of lines
590-595 is a diagnostic only and is not modelled). -/
def setFloatKey (d : GeqdskDoc) (k : Option String) (v : ℝ) : GeqdskDoc :=
  match k with
  | none => d
  | some key =>
    if key = ("rdim") then { d with rdim := v }
    else if key = ("zdim") then { d with zdim := v }
    else if key = ("rcentr") then { d with rcentr := v }
    else if key = ("rleft") then { d with rleft := v }
    else if key = ("zmid") then { d with zmid := v }
    else if key = ("rmagx") then { d with rmagx := v }
    else if key = ("zmagx") then { d with zmagx := v }
    else if key = ("simagx") then { d with simagx := v }
    else if key = ("sibdry") then { d with sibdry := v }
    else if key = ("bcentr") then { d with bcentr := v }
    else if key = ("cpasma") then { d with cpasma := v }
    else d

/-- `data[key]` for a named float slot (the list comprehension of
`geqdsk.write`, line 495). -/
def getFloatKey (d : GeqdskDoc) (key : String) : ℝ :=
  if key = ("rdim") then d.rdim
  else if key = ("zdim") then d.zdim
  else if key = ("rcentr") then d.rcentr
  else if key = ("rleft") then d.rleft
  else if key = ("zmid") then d.zmid
  else if key = ("rmagx") then d.rmagx
  else if key = ("zmagx") then d.zmagx
  else if key = ("simagx") then d.simagx
  else if key = ("sibdry") then d.sibdry
  else if key = ("bcentr") then d.bcentr
  else if key = ("cpasma") then d.cpasma
  else 0

/-- Lines 493-496 of `geqdsk.write`: the 20 floats of the header block,
`0.0` in the dummy slots and the document value — unscaled — in the
named slots. -/
def geqdsk_write_float_block (d : GeqdskDoc) : List ℝ :=
  _float_keys.map (fun k =>
    match k with
    | none => 0
    | some key => getFloatKey d key)

/-- The interleaving `bdry[0::2], bdry[1::2] = rbdry, zbdry` of
`geqdsk.write` (lines 509-515); the validation of lines 441-470
guarantees the two inputs have equal length. -/
def interleave {α : Type} (xs ys : List α) : List α :=
  (xs.zip ys).foldr (fun p acc => p.1 :: p.2 :: acc) []

/-- The float arrays emitted by `geqdsk.write`, in file order: the
20-float header block, the six grids (each passed through verbatim from
the document, with no convention scaling anywhere), then the interleaved
boundary and limiter arrays when their counts are positive.  The header
comment line, the `(2i5)` counts line and the pre-write shape validation
(lines 441-491) are not modelled. -/
def geqdsk_write_blocks (d : GeqdskDoc) : List (List ℝ) :=
  [geqdsk_write_float_block d, d.fpol, d.pres, d.ffprime, d.pprime, d.psi, d.qpsi]
    ++ (if 0 < d.nbdry then [interleave (d.rbdry.getD []) (d.zbdry.getD [])] else [])
    ++ (if 0 < d.nlim then [interleave (d.rlim.getD []) (d.zlim.getD [])] else [])

/-- One step of the division loop of `geqdsk.read` (lines 607-610):
`data[var] /= 2 * np.pi`. -/
noncomputable def divideBy2Pi (d : GeqdskDoc) (var : String) : GeqdskDoc :=
  if var = ("psi") then { d with psi := d.psi.map (fun x => x / (2 * Real.pi)) }
  else if var = ("simagx") then { d with simagx := d.simagx / (2 * Real.pi) }
  else if var = ("sibdry") then { d with sibdry := d.sibdry / (2 * Real.pi) }
  else d

/-- Lines 606-610 of `geqdsk.read`: when `cocos > 10`, divide `psi`,
`simagx` and `sibdry` by `2 * π`; otherwise leave the document
unchanged. -/
noncomputable def read_cocos_adjust (cocos : ℤ) (d : GeqdskDoc) : GeqdskDoc :=
  if 10 < cocos then
    ([("psi"), ("simagx"), ("sibdry")]).foldl divideBy2Pi d
  else d

/-- Lines 583-604 of `geqdsk.read`: the 20 header floats (assigned slot
by slot through `_float_keys`) followed by the six grids.  The line
decoder of the external `fortranformat` reader is the parameter
`decF`. -/
noncomputable def geqdsk_read_grids (decF : String → List ℝ) (nx ny : ℕ)
    (lines : List String) : Except PyErr (GeqdskDoc × List String) := do
  let o ← read_array decF (.scalar 20) lines
  let d := (_float_keys.zip o.values).foldl (fun d p => setFloatKey d p.1 p.2) {}
  let g1 ← read_array decF (.scalar (nx : ℤ)) o.rest
  let g2 ← read_array decF (.scalar (nx : ℤ)) g1.rest
  let g3 ← read_array decF (.scalar (nx : ℤ)) g2.rest
  let g4 ← read_array decF (.scalar (nx : ℤ)) g3.rest
  let gp ← read_array decF (.dims [(nx : ℤ), (ny : ℤ)]) g4.rest
  let g6 ← read_array decF (.scalar (nx : ℤ)) gp.rest
  .ok ({ d with
          fpol := g1.values
          pres := g2.values
          ffprime := g3.values
          pprime := g4.values
          psi := gp.values
          qpsi := g6.values }, g6.rest)

/-- Lines 612-622 of `geqdsk.read`: the boundary/limiter counts line
followed by the interleaved coordinate arrays, each read only when its
count is positive. -/
def geqdsk_read_boundary (decI : String → List ℤ) (decF : String → List ℝ)
    (d : GeqdskDoc) (lines : List String) : Except PyErr GeqdskDoc := do
  let o ← read_array decI (.scalar 2) lines
  match o.values with
  | [nbdry, nlim] => do
    let d1 := { d with nbdry := nbdry, nlim := nlim }
    let (d2, rest) ←
      (if 0 < nbdry then do
        let b ← read_array decF (.scalar (2 * nbdry)) o.rest
        pure ({ d1 with
                 rbdry := some (everyOther b.values)
                 zbdry := some (everyOther (b.values.drop 1)) }, b.rest)
      else pure (d1, o.rest))
    if 0 < nlim then do
      let ol ← read_array decF (.scalar (2 * nlim)) rest
      pure { d2 with
              rlim := some (everyOther ol.values)
              zlim := some (everyOther (ol.values.drop 1)) }
    else pure d2
  | _ => .error .valueError

/-- `geqdsk.read` below its header (lines 583-624): grids, then the
COCOS adjustment, then the boundary section.  The liberal header parsing
of lines 567-581 supplies `nx` and `ny` and is not modelled; `cocos` is
the keyword argument of `read` (default `1`). -/
noncomputable def geqdsk_read_body (decF : String → List ℝ)
    (decI : String → List ℤ) (cocos : ℤ) (nx ny : ℕ) (lines : List String) :
    Except PyErr GeqdskDoc := do
  let (d, rest) ← geqdsk_read_grids decF nx ny lines
  geqdsk_read_boundary decI decF (read_cocos_adjust cocos d) rest

/-! ## Concrete inputs used by the theorems below -/

/-- Simultaneous update of the three convention-tied fields; the COCOS
division (`read_cocos_adjust`) is exactly such an update. -/
def setPsi3 (d : GeqdskDoc) (x y : ℝ) (ps : List ℝ) : GeqdskDoc :=
  { d with
     simagx := x
     sibdry := y
     psi := ps }

/-- A G-EQDSK document whose `simagx` is `1` (all other fields at their
zero defaults). -/
def c3Doc : GeqdskDoc := { simagx := 1 }

/-- An A-EQDSK document containing only the extended-general field
`pbinj` (index 0 of `_extended_general`). -/
def c2Data : Doc := [(("pbinj"), DocValue.num 1)]

/-- An A-EQDSK document containing only the extended-general field
`zvsout` (index 4 of `_extended_general`). -/
def c2DataB : Doc := [(("zvsout"), DocValue.num 7)]

/-- A token-to-integer parser for concrete runs (Python `int`). -/
def c8pint : String → Option ℤ := fun s => parseIntCell s.toList

/-- A token-to-float parser for concrete runs (Python `float`). -/
def c8pfloat : String → Option ℚ := fun _ => some 0

/-- A line decoder yielding 44 zero cells per line, enough for either
general block of an A-EQDSK file. -/
def c8decF : String → List ℚ := fun _ => List.replicate 44 0

/-- A line decoder for the extended-sizes line. -/
def c8decI : String → List ℤ := fun _ => [0, 0, 0, 0]

/-- A legacy A-EQDSK file: four header lines, one line carrying the
first general block, one carrying the second, then end of file — no
extended section. -/
def c8Lines : List String :=
  [("HDR"), ("7"), ("0.0"), ("* 0 1 0 DN 0 0 CLC"), ("a"), ("b")]

/-- The document accumulated by the preamble of `aeqdsk.read` on
`c8Lines`. -/
def c8Doc : Doc :=
  match aeqdsk_read_preamble c8pint c8pfloat c8decF c8Lines with
  | .ok (d, _) => d
  | .error _ => []

end FreeQDSK

/-! ## Supporting lemmas -/

namespace FreeQDSK

theorem pyTake_natCast {α : Type} (n : ℕ) (xs : List α) :
    pyTake (n : ℤ) xs = xs.take n := by
  simp [pyTake]

theorem collect_ok_spec {α : Type} (decode : String → List α) (n : ℤ) :
    ∀ (lines : List String) (acc res : List α) (rest : List String),
      collect decode n lines acc = .ok (res, rest) →
      ∃ k, k ≤ lines.length ∧ rest = lines.drop k ∧
        res = acc ++ ((lines.take k).map decode).flatten ∧ n ≤ (res.length : ℤ) := by
  intro lines
  induction lines with
  | nil =>
    intro acc res rest h
    rw [collect.eq_def] at h
    by_cases hc : (acc.length : ℤ) < n
    · simp [hc] at h
    · simp [hc] at h
      obtain ⟨h1, h2⟩ := h
      subst h1
      subst h2
      exact ⟨0, by simp, by simp, by simp, by omega⟩
  | cons l ls ih =>
    intro acc res rest h
    rw [collect.eq_def] at h
    by_cases hc : (acc.length : ℤ) < n
    · simp only [hc, if_true] at h
      obtain ⟨k, hk, hrest, hres, hn⟩ := ih (acc ++ decode l) res rest h
      refine ⟨k + 1, by simpa using hk, by simpa using hrest, ?_, hn⟩
      simp [hres, List.append_assoc]
    · simp [hc] at h
      obtain ⟨h1, h2⟩ := h
      subst h1
      subst h2
      exact ⟨0, by simp, by simp, by simp, by omega⟩

theorem collect_eof_spec {α : Type} (decode : String → List α) (n : ℤ) :
    ∀ (lines : List String) (acc : List α),
      ((acc.length : ℤ) + ((lines.map decode).flatten.length : ℤ) < n) →
      collect decode n lines acc = .error .eof := by
  intro lines
  induction lines with
  | nil =>
    intro acc h
    rw [collect.eq_def]
    simp at h
    simp [h]
  | cons l ls ih =>
    intro acc h
    rw [collect.eq_def]
    simp only [List.map_cons, List.flatten_cons, List.length_append] at h
    have hc : (acc.length : ℤ) < n := by push_cast at h ⊢; omega
    simp only [hc, if_true]
    apply ih
    simp only [List.length_append]
    push_cast at h ⊢
    omega

theorem natCast_ne_shape_all (n : ℕ) : (n : ℤ) ≠ shape_all := by
  simp only [shape_all]
  omega

theorem numEq_true_pyInt (v : DocValue) (q : ℚ) (h : numEq v q = true) :
    ∃ z, pyInt v = .ok z := by
  cases v <;> simp_all [numEq, pyInt]

theorem read_cocos_adjust_spec (c : ℤ) (d : GeqdskDoc) :
    read_cocos_adjust c d =
      if 10 < c then
        setPsi3 d (d.simagx / (2 * Real.pi)) (d.sibdry / (2 * Real.pi))
          (d.psi.map (fun x => x / (2 * Real.pi)))
      else d := by
  by_cases hc : 10 < c
  · simp [read_cocos_adjust, hc, divideBy2Pi, setPsi3]
  · simp [read_cocos_adjust, hc]

theorem geqdsk_read_boundary_setPsi3 (decI : String → List ℤ)
    (decF : String → List ℝ) (d : GeqdskDoc) (x y : ℝ) (ps : List ℝ)
    (lines : List String) :
    geqdsk_read_boundary decI decF (setPsi3 d x y ps) lines =
      (geqdsk_read_boundary decI decF d lines).map (fun b => setPsi3 b x y ps) := by
  simp only [geqdsk_read_boundary]
  cases read_array decI (.scalar 2) lines with
  | error e => rfl
  | ok o =>
    simp only [Bind.bind, Except.bind]
    rcases o.values with _ | ⟨a, _ | ⟨b, _ | ⟨c, tl⟩⟩⟩
    · rfl
    · rfl
    · by_cases ha : 0 < a
      · simp only [ha, if_true]
        cases read_array decF (.scalar (2 * a)) o.rest with
        | error e => rfl
        | ok ob =>
          simp only [Pure.pure, Except.pure]
          by_cases hb : 0 < b
          · simp only [hb, if_true]
            cases read_array decF (.scalar (2 * b)) ob.rest with
            | error e => rfl
            | ok oL => rfl
          · simp only [hb, if_false]
            rfl
      · simp only [ha, if_false]
        simp only [Pure.pure, Except.pure]
        by_cases hb : 0 < b
        · simp only [hb, if_true]
          cases read_array decF (.scalar (2 * b)) o.rest with
          | error e => rfl
          | ok oL => rfl
        · simp only [hb, if_false]
          rfl
    · rfl

theorem geqdsk_read_boundary_preserves (decI : String → List ℤ)
    (decF : String → List ℝ) (d : GeqdskDoc) (lines : List String)
    (out : GeqdskDoc)
    (h : geqdsk_read_boundary decI decF d lines = .ok out) :
    out.simagx = d.simagx ∧ out.sibdry = d.sibdry ∧ out.psi = d.psi := by
  simp only [geqdsk_read_boundary] at h
  cases hr : read_array decI (.scalar 2) lines with
  | error e => rw [hr] at h; exact absurd h (by simp [Bind.bind, Except.bind])
  | ok o =>
    rw [hr] at h
    simp only [Bind.bind, Except.bind] at h
    obtain ⟨vals, odims, orest, ow⟩ := o
    rcases vals with _ | ⟨a, _ | ⟨b, _ | ⟨c, tl⟩⟩⟩
    · simp at h
    · simp at h
    · by_cases ha : 0 < a
      · simp only [ha, if_true] at h
        cases hbr : read_array decF (.scalar (2 * a)) orest with
        | error e => rw [hbr] at h; simp at h
        | ok ob =>
          rw [hbr] at h
          simp only [Pure.pure, Except.pure] at h
          by_cases hb : 0 < b
          · simp only [hb, if_true] at h
            cases hLr : read_array decF (.scalar (2 * b)) ob.rest with
            | error e => rw [hLr] at h; simp at h
            | ok oL =>
              rw [hLr] at h
              simp only [Except.ok.injEq] at h
              subst h
              exact ⟨rfl, rfl, rfl⟩
          · simp only [hb, if_false] at h
            simp only [Except.ok.injEq] at h
            subst h
            exact ⟨rfl, rfl, rfl⟩
      · simp only [ha, if_false] at h
        simp only [Pure.pure, Except.pure] at h
        by_cases hb : 0 < b
        · simp only [hb, if_true] at h
          cases hLr : read_array decF (.scalar (2 * b)) orest with
          | error e => rw [hLr] at h; simp at h
          | ok oL =>
            rw [hLr] at h
            simp only [Except.ok.injEq] at h
            subst h
            exact ⟨rfl, rfl, rfl⟩
        · simp only [hb, if_false] at h
          simp only [Except.ok.injEq] at h
          subst h
          exact ⟨rfl, rfl, rfl⟩
    · simp at h

end FreeQDSK

/-! ## Claims -/

namespace FreeQDSK

/-- C4: when `read_array` with a fixed count `n` succeeds, the returned
array holds exactly the first `n` of the cells decoded from the
consumed prefix of the input; any extra cells on the final consumed
line are discarded, and the non-fatal trailing-data `UserWarning`
fires exactly when such extras existed — the call does not error.  The
witness runs the concrete scenario: 8 integers with a width-1
3-per-line descriptor against the three lines `123`, `456`, `789`
(9 cells available). -/
theorem read_array_trailing_discard {α : Type} (decode : String → List α)
    (n : ℕ) (lines : List String) (out : ReadOut α)
    (h : read_array decode (.scalar (n : ℤ)) lines = .ok out) :
    ∃ k, k ≤ lines.length ∧ out.rest = lines.drop k ∧
      out.values = (((lines.take k).map decode).flatten).take n ∧
      (out.warned = true ↔ n < ((lines.take k).map decode).flatten.length) := by
  simp only [read_array] at h
  cases hx : read_array_flat decode (n : ℤ) lines with
  | error e => rw [hx] at h; simp [Except.map] at h
  | ok o =>
    rw [hx] at h
    obtain ⟨v, r, w⟩ := o
    simp only [Except.map, Except.ok.injEq] at h
    subst h
    simp only [read_array_flat, natCast_ne_shape_all n, if_false] at hx
    cases hcol : collect decode (n : ℤ) lines [] with
    | error e => rw [hcol] at hx; simp at hx
    | ok p =>
      rw [hcol] at hx
      obtain ⟨res, rest⟩ := p
      obtain ⟨k, hk, hrest, hres, hn⟩ :=
        collect_ok_spec decode (n : ℤ) lines [] res rest hcol
      simp only [List.nil_append] at hres
      subst hres
      refine ⟨k, hk, ?_⟩
      by_cases hl : ((((lines.take k).map decode).flatten).length : ℤ) = (n : ℤ)
      · simp only [hl, if_true, Except.ok.injEq, Prod.mk.injEq] at hx
        obtain ⟨h1, h2, h3⟩ := hx
        subst h1
        subst h2
        subst h3
        have hlen : (((lines.take k).map decode).flatten).length = n := by
          exact_mod_cast hl
        refine ⟨hrest, ?_, ?_⟩
        · rw [List.take_of_length_le (le_of_eq hlen)]
        · rw [hlen]
          simp
      · simp only [hl, if_false, Except.ok.injEq, Prod.mk.injEq] at hx
        obtain ⟨h1, h2, h3⟩ := hx
        subst h1
        subst h2
        subst h3
        refine ⟨hrest, ?_, ?_⟩
        · rw [pyTake_natCast]
        · simp only [true_iff]
          omega

/-- Witness for `read_array_trailing_discard`: reading 8 integers with
a width-1 3-per-line descriptor from `123` / `456` / `789` succeeds
with the first 8 cells, discards the ninth, consumes all three lines
and warns. -/
theorem read_array_trailing_discard_witness :
    (read_array (decodeIntCells 3 1) (.scalar ((8 : ℕ) : ℤ))
        [("123"), ("456"), ("789")] =
      .ok ⟨[1, 2, 3, 4, 5, 6, 7, 8], [8], [], true⟩) ∧
    ∃ k, k ≤ ([("123"), ("456"), ("789")] : List String).length ∧
      (⟨[1, 2, 3, 4, 5, 6, 7, 8], [8], [], true⟩ : ReadOut ℤ).rest =
        [("123"), ("456"), ("789")].drop k ∧
      (⟨[1, 2, 3, 4, 5, 6, 7, 8], [8], [], true⟩ : ReadOut ℤ).values =
        ((([("123"), ("456"), ("789")].take k).map
          (decodeIntCells 3 1)).flatten).take 8 ∧
      ((⟨[1, 2, 3, 4, 5, 6, 7, 8], [8], [], true⟩ : ReadOut ℤ).warned = true ↔
        8 < (([("123"), ("456"), ("789")].take k).map
          (decodeIntCells 3 1)).flatten.length) := by
  refine ⟨by decide, ?_⟩
  exact read_array_trailing_discard (decodeIntCells 3 1) 8 [("123"), ("456"), ("789")]
    ⟨[1, 2, 3, 4, 5, 6, 7, 8], [8], [], true⟩ (by decide)

/-- C5: if the input supplies fewer cells than a fixed-count or shaped
request needs, `read_array` fails with `EOFError` — and, the result
being an `Except.error`, no partial array accompanies the failure;
the read-until-end mode never fails, returning every decoded cell. -/
theorem read_array_eof_on_short_input {α : Type} (decode : String → List α)
    (lines : List String) (n m k : ℕ) :
    ((lines.map decode).flatten.length < n →
        read_array decode (.scalar (n : ℤ)) lines = .error .eof) ∧
    ((lines.map decode).flatten.length < m * k →
        read_array decode (.dims [(m : ℤ), (k : ℤ)]) lines = .error .eof) ∧
    ∃ out, read_array decode .all lines = .ok out ∧
      out.values = (lines.map decode).flatten := by
  have hflat : ∀ (n' : ℕ), (lines.map decode).flatten.length < n' →
      read_array_flat decode ((n' : ℕ) : ℤ) lines = .error .eof := by
    intro n' hlt
    have hcol := collect_eof_spec decode ((n' : ℕ) : ℤ) lines []
    simp only [List.length_nil, Nat.cast_zero, zero_add] at hcol
    rw [read_array_flat, if_neg (natCast_ne_shape_all n'),
      hcol (by exact_mod_cast hlt)]
  refine ⟨?_, ?_, ?_⟩
  · intro hlt
    simp only [read_array]
    rw [hflat n hlt]
    rfl
  · intro hlt
    simp only [read_array]
    have hprod : listProd [(m : ℤ), (k : ℤ)] = ((m * k : ℕ) : ℤ) := by
      simp [listProd]
    rw [hprod, hflat (m * k) hlt]
    rfl
  · simp only [read_array, read_array_flat, if_pos rfl]
    exact ⟨_, rfl, rfl⟩

/-- Witness for `read_array_eof_on_short_input`: one line of three
cells exhausts before a fixed count of 5 or a `(2, 3)` shape is
satisfied, while the until-end mode returns the three cells. -/
theorem read_array_eof_on_short_input_witness :
    (read_array (decodeIntCells 3 1) (.scalar ((5 : ℕ) : ℤ)) [("123")] =
      .error .eof) ∧
    (read_array (decodeIntCells 3 1) (.dims [((2 : ℕ) : ℤ), ((3 : ℕ) : ℤ)])
        [("123")] = .error .eof) ∧
    ∃ out, read_array (decodeIntCells 3 1) .all [("123")] = .ok out ∧
      out.values = [1, 2, 3] := by
  obtain ⟨h1, h2, h3⟩ :=
    read_array_eof_on_short_input (decodeIntCells 3 1) [("123")] 5 2 3
  refine ⟨h1 (by decide), h2 (by decide), ?_⟩
  obtain ⟨out, ho, hv⟩ := h3
  exact ⟨out, ho, hv.trans (by decide)⟩

/-- C6: a `read_array` call with shape `[m, n]` is exactly the
fixed-count read of `m * n` cells from the same input, reinterpreted
with dimensions `[m, n]` in column-major order: the Fortran-order
flattening of the shaped result is the flat sequence the fixed-count
read produces, and entry `(i, j)` of the shaped array sits at flat
offset `i + j * m` (first index fastest). -/
theorem read_array_reshape_column_major {α : Type} (decode : String → List α)
    (lines : List String) (m n : ℕ) :
    (read_array decode (.dims [(m : ℤ), (n : ℤ)]) lines =
      (read_array decode (.scalar ((m * n : ℕ) : ℤ)) lines).map
        (fun o => ⟨o.values, [(m : ℤ), (n : ℤ)], o.rest, o.warned⟩)) ∧
    ∀ (out outF : ReadOut α),
      read_array decode (.dims [(m : ℤ), (n : ℤ)]) lines = .ok out →
      read_array decode (.scalar ((m * n : ℕ) : ℤ)) lines = .ok outF →
      out.values = outF.values ∧
        ∀ i j, i < m → j < n →
          fortranEntry out i j = outF.values.get? (i + j * m) := by
  have hprod : listProd [(m : ℤ), (n : ℤ)] = ((m * n : ℕ) : ℤ) := by
    simp [listProd]
  have h1 : read_array decode (.dims [(m : ℤ), (n : ℤ)]) lines =
      (read_array decode (.scalar ((m * n : ℕ) : ℤ)) lines).map
        (fun o => ⟨o.values, [(m : ℤ), (n : ℤ)], o.rest, o.warned⟩) := by
    simp only [read_array, hprod]
    cases read_array_flat decode ((m * n : ℕ) : ℤ) lines with
    | error e => rfl
    | ok o => rfl
  refine ⟨h1, ?_⟩
  intro out outF hdims hfix
  rw [h1, hfix] at hdims
  simp only [Except.map, Except.ok.injEq] at hdims
  subst hdims
  refine ⟨rfl, ?_⟩
  intro i j hi hj
  simp [fortranEntry]

/-- Witness for `read_array_reshape_column_major`: six width-1 cells
shaped `(2, 3)`; entry `(1, 2)` is the sixth flat cell. -/
theorem read_array_reshape_column_major_witness :
    (read_array (decodeIntCells 6 1) (.dims [((2 : ℕ) : ℤ), ((3 : ℕ) : ℤ)])
        [("123456")] = .ok ⟨[1, 2, 3, 4, 5, 6], [2, 3], [], false⟩) ∧
    fortranEntry (⟨[1, 2, 3, 4, 5, 6], [2, 3], [], false⟩ : ReadOut ℤ) 1 2 =
      some 6 := by
  have h := (read_array_reshape_column_major (decodeIntCells 6 1) [("123456")] 2 3).2
    ⟨[1, 2, 3, 4, 5, 6], [2, 3], [], false⟩ ⟨[1, 2, 3, 4, 5, 6], [6], [], false⟩
    (by decide) (by decide)
  exact ⟨by decide, (h.2 1 2 (by decide) (by decide)).trans (by decide)⟩

/-- C10: the integer shape `-44379512921` behaves exactly like the
string shape `"all"`: every remaining line is decoded, all cells are
returned, the input is left exhausted, and no error or warning
arises. -/
theorem read_array_sentinel_reads_all {α : Type} (decode : String → List α)
    (lines : List String) :
    read_array decode (.scalar (-44379512921)) lines =
      .ok ⟨(lines.map decode).flatten,
           [((lines.map decode).flatten.length : ℤ)], [], false⟩ ∧
    read_array decode (.scalar (-44379512921)) lines =
      read_array decode .all lines := by
  have hs : (-44379512921 : ℤ) = shape_all := rfl
  constructor
  · simp [read_array, read_array_flat, hs, Except.map]
  · simp [read_array, hs]

/-- C7: for any A-EQDSK field whose policy names a size field
(`has_length`), resolving it against a document that contains neither
the field nor the size field yields the empty array, and against a
document carrying the size field with value `k` (the field itself
absent) yields a zero array of length `k`. -/
theorem aeqdsk_array_field_defaulting (f : Field) (hl : String) (data : Doc)
    (k : ℕ) (hf : f.has_length = some hl)
    (hname : List.lookup f.name data = none) :
    (List.lookup hl data = none → _array_field f data = .ok []) ∧
    (List.lookup hl data = some (DocValue.int (k : ℤ)) →
      _array_field f data = .ok (List.replicate k 0)) := by
  constructor
  · intro hhl
    simp [_array_field, hname, hf, hhl, np_zeros]
  · intro hhl
    simp [_array_field, hname, hf, hhl, np_zeros]

/-- Witness for `aeqdsk_array_field_defaulting`: the catalog field
`csilop` (sized by `nsilop`) resolves to `[]` against the empty
document and to `[0, 0]` when only `nsilop = 2` is present. -/
theorem aeqdsk_array_field_defaulting_witness :
    (_array_field csilopField [] = .ok []) ∧
    (_array_field csilopField [(("nsilop"), DocValue.int 2)] = .ok [0, 0]) := by
  have h1 := aeqdsk_array_field_defaulting csilopField ("nsilop") [] 2
    (by decide) (by decide)
  have h2 := aeqdsk_array_field_defaulting csilopField ("nsilop")
    [(("nsilop"), DocValue.int 2)] 2 (by decide) (by decide)
  exact ⟨h1.1 (by decide), (h2.2 (by decide)).trans (by decide)⟩

/-- C9: for a size field paired through `length_of` with an array, and
for an array field paired through `has_length` with a size, writing
fails with `ValueError` exactly when both members of the pair are
present and the stated length disagrees with the array's actual
length; when they agree, or when either member is absent, no error is
raised from the pair. -/
theorem aeqdsk_length_mismatch (f g : Field) (lo hl : String) (data : Doc)
    (v w : DocValue) (xs : List ℚ)
    (hf : f.length_of = some lo) (hg : g.has_length = some hl) :
    ((List.lookup f.name data = some v →
        List.lookup lo data = some (DocValue.arr xs) →
        numEq v (xs.length : ℚ) = false →
        _len_field f data = .error .valueError) ∧
     (List.lookup f.name data = some v →
        List.lookup lo data = some (DocValue.arr xs) →
        numEq v (xs.length : ℚ) = true → ∃ z, _len_field f data = .ok z) ∧
     (List.lookup f.name data = none →
        List.lookup lo data = some (DocValue.arr xs) →
        _len_field f data = .ok (xs.length : ℤ)) ∧
     (List.lookup f.name data = some v → List.lookup lo data = none →
        _len_field f data = pyInt v)) ∧
    ((List.lookup g.name data = some (DocValue.arr xs) →
        List.lookup hl data = some w →
        numEq w (xs.length : ℚ) = false →
        _array_field g data = .error .valueError) ∧
     (List.lookup g.name data = some (DocValue.arr xs) →
        List.lookup hl data = some w →
        numEq w (xs.length : ℚ) = true → _array_field g data = .ok xs) ∧
     (List.lookup g.name data = some (DocValue.arr xs) →
        List.lookup hl data = none → _array_field g data = .ok xs)) := by
  refine ⟨⟨?_, ?_, ?_, ?_⟩, ⟨?_, ?_, ?_⟩⟩
  · intro hv hlo hne
    simp [_len_field, hv, hf, hlo, pyLen, hne, Bind.bind, Except.bind]
  · intro hv hlo heq
    obtain ⟨z, hz⟩ := numEq_true_pyInt v (xs.length : ℚ) heq
    refine ⟨z, ?_⟩
    simp [_len_field, hv, hf, hlo, pyLen, heq, hz, Bind.bind, Except.bind]
  · intro hv hlo
    simp [_len_field, hv, hf, hlo, pyLen, Bind.bind, Except.bind, Except.map,
      Pure.pure, Except.pure]
  · intro hv hlo
    simp [_len_field, hv, hf, hlo]
  · intro hv hhl hne
    simp [_array_field, hv, hg, hhl, pyAsArray, pyLen, hne, Bind.bind, Except.bind]
  · intro hv hhl heq
    simp [_array_field, hv, hg, hhl, pyAsArray, pyLen, heq, Bind.bind, Except.bind]
  · intro hv hhl
    simp [_array_field, hv, hg, hhl, pyAsArray, Bind.bind, Except.bind]

/-- Witness for `aeqdsk_length_mismatch`: `nsilop`/`csilop` with
`nsilop = 2` against a 1-element `csilop` fails, with matching values
succeeds; `csilop` of length 2 against `nsilop = 3` fails, against
`nsilop = 2` passes through verbatim. -/
theorem aeqdsk_length_mismatch_witness :
    (_len_field (mkLen ("nsilop") ("csilop"))
        [(("nsilop"), DocValue.int 2), (("csilop"), DocValue.arr [1])] =
      .error .valueError) ∧
    (∃ z, _len_field (mkLen ("nsilop") ("csilop"))
        [(("nsilop"), DocValue.int 1), (("csilop"), DocValue.arr [5])] = .ok z) ∧
    (_array_field csilopField
        [(("nsilop"), DocValue.int 3), (("csilop"), DocValue.arr [1, 2])] =
      .error .valueError) ∧
    (_array_field csilopField
        [(("nsilop"), DocValue.int 2), (("csilop"), DocValue.arr [1, 2])] =
      .ok [1, 2]) := by
  have hbad := aeqdsk_length_mismatch (mkLen ("nsilop") ("csilop")) csilopField
    ("csilop") ("nsilop")
    [(("nsilop"), DocValue.int 2), (("csilop"), DocValue.arr [1])]
    (DocValue.int 2) (DocValue.int 2) [1] (by decide) (by decide)
  have hgood := aeqdsk_length_mismatch (mkLen ("nsilop") ("csilop")) csilopField
    ("csilop") ("nsilop")
    [(("nsilop"), DocValue.int 1), (("csilop"), DocValue.arr [5])]
    (DocValue.int 1) (DocValue.int 1) [5] (by decide) (by decide)
  have habad := aeqdsk_length_mismatch (mkLen ("nsilop") ("csilop")) csilopField
    ("csilop") ("nsilop")
    [(("nsilop"), DocValue.int 3), (("csilop"), DocValue.arr [1, 2])]
    (DocValue.int 3) (DocValue.int 3) [1, 2] (by decide) (by decide)
  have hagood := aeqdsk_length_mismatch (mkLen ("nsilop") ("csilop")) csilopField
    ("csilop") ("nsilop")
    [(("nsilop"), DocValue.int 2), (("csilop"), DocValue.arr [1, 2])]
    (DocValue.int 2) (DocValue.int 2) [1, 2] (by decide) (by decide)
  refine ⟨?_, ?_, ?_, ?_⟩
  · exact hbad.1.1 (by decide) (by decide) (by decide)
  · exact hgood.1.2.1 (by decide) (by decide) (by decide)
  · exact habad.2.1 (by decide) (by decide) (by decide)
  · exact hagood.2.2.1 (by decide) (by decide) (by decide)

/-- C8: whenever the preamble of `aeqdsk.read` (header, first general
block, laser arrays, second general block) succeeds and the read of the
extended-sizes line then fails for any reason, the failure is caught,
the legacy-file warning is issued, and the accumulated document is
returned as a successful result. -/
theorem aeqdsk_read_legacy_fallback (pint : String → Option ℤ)
    (pfloat : String → Option ℚ) (decF : String → List ℚ)
    (decI : String → List ℤ) (lines : List String) (d : Doc)
    (rest : List String) (e : PyErr)
    (hpre : aeqdsk_read_preamble pint pfloat decF lines = .ok (d, rest))
    (hfail : read_array decI (.scalar (_extended_sizes.length : ℤ)) rest =
      .error e) :
    aeqdsk_read pint pfloat decF decI lines = .ok ⟨d, true, false⟩ := by
  simp [aeqdsk_read, hpre, hfail]

/-- Witness for `aeqdsk_read_legacy_fallback`: a 6-line legacy file —
the extended-sizes read hits end of file, and `read` returns the
preamble document with the legacy warning. -/
theorem aeqdsk_read_legacy_fallback_witness :
    aeqdsk_read c8pint c8pfloat c8decF c8decI c8Lines =
      .ok ⟨c8Doc, true, false⟩ := by
  exact aeqdsk_read_legacy_fallback c8pint c8pfloat c8decF c8decI c8Lines c8Doc []
    PyErr.eof (by decide) (by decide)

/-- C2 (evaluation of the failing inputs): a document containing only
`pbinj` — index 0 of the extended general block — triggers the extended
section, yet the emitted trailing block is empty, so the present field
`pbinj` is not among the written fields; with only `zvsout` (index 4)
the trailing block holds exactly the four fields before it, again
excluding the last present field.  This contradicts the claim (and the
source's own comment, "write up to there"): whenever the index of the
last present field is a multiple of 4, `last_field += -last_field % 4`
fails to round past it. -/
theorem aeqdsk_trailing_block_drops_last_field :
    ((List.lookup (("pbinj") : String) c2Data).isSome = true ∧
      aeqdsk_write_extended c2Data =
        .ok (some ⟨[0, 0, 0, 0], [], [[], []], []⟩)) ∧
    ((List.lookup (("zvsout") : String) c2DataB).isSome = true ∧
      aeqdsk_write_extended c2DataB =
        .ok (some ⟨[0, 0, 0, 0], [], [[], []],
          [(("pbinj"), 0), (("rvsin"), 0), (("zvsin"), 0), (("rvsout"), 0)]⟩)) := by
  decide

/-- C3 (counterexample): `geqdsk.write` does not multiply the
convention-tied fields by `2π` before encoding — it takes no convention
code at all.  For the document with `simagx = 1`, the `simagx` slot of
the emitted float block is `1` itself, not `2π · 1`. -/
theorem geqdsk_write_no_2pi_on_simagx :
    (geqdsk_write_float_block c3Doc).get? 7 = some 1 ∧
    ¬ (geqdsk_write_float_block c3Doc).get? 7 = some (2 * Real.pi * 1) := by
  have h7 : (geqdsk_write_float_block c3Doc).get? 7 = some 1 := rfl
  refine ⟨h7, ?_⟩
  rw [h7]
  intro hcontra
  have h1 : (1 : ℝ) = 2 * Real.pi * 1 := Option.some.inj hcontra
  have hpi := Real.pi_gt_three
  nlinarith

/-- C3 (amended): on the read side, a convention code greater than 10
divides `psi`, `simagx` and `sibdry` by `2π` after decoding and any
other code leaves the document unchanged — `geqdsk.read` with code `c`
equals `geqdsk.read` with the default code followed by the conditional
division.  On the write side there is no symmetric transformation:
`geqdsk.write` accepts no convention code and encodes every float slot,
`simagx` and `sibdry` included, and the `psi` grid verbatim from the
document. -/
theorem geqdsk_cocos_divides_on_read_only (decF : String → List ℝ)
    (decI : String → List ℤ) (c : ℤ) (nx ny : ℕ) (lines : List String) :
    (geqdsk_read_body decF decI c nx ny lines =
      (geqdsk_read_body decF decI 1 nx ny lines).map
        (fun b =>
          if 10 < c then
            setPsi3 b (b.simagx / (2 * Real.pi)) (b.sibdry / (2 * Real.pi))
              (b.psi.map (fun x => x / (2 * Real.pi)))
          else b)) ∧
    (∀ d : GeqdskDoc,
      geqdsk_write_float_block d =
        [d.rdim, d.zdim, d.rcentr, d.rleft, d.zmid, d.rmagx, d.zmagx, d.simagx,
         d.sibdry, d.bcentr, d.cpasma, d.simagx, 0, d.rmagx, 0, d.zmagx, 0,
         d.sibdry, 0, 0] ∧
      (geqdsk_write_blocks d).get? 5 = some d.psi) := by
  constructor
  · simp only [geqdsk_read_body, Bind.bind, Except.bind]
    cases hg : geqdsk_read_grids decF nx ny lines with
    | error e => rfl
    | ok p =>
      obtain ⟨d0, rest⟩ := p
      dsimp only
      have hone : read_cocos_adjust 1 d0 = d0 := by
        rw [read_cocos_adjust_spec]
        norm_num
      rw [hone]
      by_cases hc : 10 < c
      · rw [read_cocos_adjust_spec, if_pos hc, geqdsk_read_boundary_setPsi3]
        cases hb : geqdsk_read_boundary decI decF d0 rest with
        | error e => rfl
        | ok b =>
          obtain ⟨h1, h2, h3⟩ := geqdsk_read_boundary_preserves decI decF d0 rest b hb
          simp only [Except.map, if_pos hc, h1, h2, h3]
      · rw [read_cocos_adjust_spec, if_neg hc]
        cases hb : geqdsk_read_boundary decI decF d0 rest with
        | error e => rfl
        | ok b => simp only [Except.map, if_neg hc]
  · intro d
    constructor
    · rfl
    · rfl

end FreeQDSK
